import Mathlib

/-!
Verification development for the pymeteo skew-T sounding-analysis module
(pymeteo/skewt.py).  The data model and the operations claimed about are
embedded shallowly: numpy arrays become functions out of the natural numbers
(with explicit lengths) or lists, scalar float arithmetic becomes real
arithmetic, fallible indexing becomes Option, and the in-place loops of the
source become explicit state-passing recursions.  Callees of skewt.py that
live in modules not present in the repository snapshot (pymeteo.thermo,
pymeteo.dynamics, pymeteo.interp) are modelled from the specification and
are marked as such in their doc comments.
-/

/- ## Physical constants (pymeteo.thermo) -/

/-- Modelled from the spec: the reference pressure of the Poisson relation,
section 4.1 of the spec (pymeteo.thermo.p00, not under src/). -/
def p00 : ℝ := 100000

/-- Modelled from the spec: the zero-Celsius offset used by the sounding
reader (pymeteo.thermo.T00, not under src/). -/
def T00 : ℝ := 273.15

/-- Modelled from the spec: the Poisson exponent Rd/Cp of section 4.1
(pymeteo.thermo, not under src/). -/
def kappaD : ℝ := 0.2854

/-- Gravitational acceleration used by the buoyancy integral of section 4.3. -/
def grav : ℝ := 9.81

/-- Modelled from the spec: dry-air gas constant (pymeteo.thermo, not under src/). -/
def rdGas : ℝ := 287.04

/-- Modelled from the spec: dry-air specific heat (pymeteo.thermo, not under src/). -/
def cpd : ℝ := 1005.7

/-- Modelled from the spec: latent heat of vaporization (pymeteo.thermo, not under src/). -/
def lvap : ℝ := 2501000

/- ## Thermodynamic primitives (pymeteo.thermo) -/

/-- Modelled from the spec: saturation vapor pressure in Pa, a Bolton-type
exponential, monotonically increasing in temperature (section 4.1,
pymeteo.thermo.es, not under src/). -/
noncomputable def met_es (T : ℝ) : ℝ :=
  611.2 * Real.exp (17.67 * (T - 273.15) / (T - 29.65))

/-- Modelled from the spec: potential temperature from the Poisson relation
with reference pressure p00 (section 4.1, pymeteo.thermo.theta, not under src/). -/
noncomputable def met_theta (T p : ℝ) : ℝ := T * (p00 / p) ^ kappaD

/-- Modelled from the spec: absolute temperature from potential temperature,
the inverse Poisson relation (section 4.1, pymeteo.thermo.T, not under src/). -/
noncomputable def met_T (theta p : ℝ) : ℝ := theta * (p / p00) ^ kappaD

/-- Modelled from the spec: virtual temperature in the T*(1+0.61*qv) form
(section 4.1, pymeteo.thermo, not under src/). -/
noncomputable def met_Tv (T qv : ℝ) : ℝ := T * (1 + 0.61 * qv)

/-- Modelled from the spec: saturation mixing ratio from the saturation
vapor pressure (pymeteo.thermo, not under src/). -/
noncomputable def met_rs (T p : ℝ) : ℝ := 0.622 * met_es T / (p - met_es T)

/-- Modelled from the spec: equivalent potential temperature, used only to
rank candidate origin levels of the most-unstable parcel search
(section 4.3 step 1, pymeteo.thermo, not under src/). -/
noncomputable def met_thetae (T p qv : ℝ) : ℝ :=
  T * (p00 / p) ^ kappaD * Real.exp (lvap * qv / (cpd * T))

/-- Modelled from the spec: moist-adiabatic lapse rate dT/dp derived from the
latent-heat balance, the Euler integration kernel for saturated ascent
(section 4.1, pymeteo.thermo.dTdp_moist, not under src/). -/
noncomputable def met_dTdp_moist (T p : ℝ) : ℝ :=
  (1 / p) * (rdGas * T + lvap * met_rs T p) /
    (cpd + lvap ^ 2 * met_rs T p * 0.622 / (rdGas * T ^ 2))

/- ## Interpolation utility (pymeteo.interp) -/

/-- Scan helper for the bracketing-segment search of the interpolation
utility: starting from index i with the given fuel, return the first index
satisfying the stop predicate, or the last index scanned. -/
def bracketAux (stop : ℕ → Prop) [DecidablePred stop] : ℕ → ℕ → ℕ
  | i, 0 => i
  | i, f + 1 => if stop i then i else bracketAux stop (i + 1) f

/-- Modelled from the spec: 1-D linear interpolation over an increasing
abscissa array of length n, with linear extrapolation from the nearest edge
segment outside the sampled range (section 4.2, pymeteo.interp.linear, not
under src/).  The bracketing segment is the first i with q below or at
xs (i+1), the edge segment otherwise. -/
noncomputable def interpInc (n : ℕ) (xs ys : ℕ → ℝ) (q : ℝ) : ℝ :=
  let i := bracketAux (fun j => q ≤ xs (j + 1)) 0 (n - 2)
  ys i + (ys (i + 1) - ys i) * (q - xs i) / (xs (i + 1) - xs i)

/-- Modelled from the spec: 1-D linear interpolation over a decreasing
abscissa array (the pressure axis of a profile), with edge extrapolation, in
the same style as interpInc (section 4.2, pymeteo.interp, not under src/). -/
noncomputable def interpDec (n : ℕ) (xs ys : ℕ → ℝ) (q : ℝ) : ℝ :=
  let i := bracketAux (fun j => xs (j + 1) ≤ q) 0 (n - 2)
  ys i + (ys (i + 1) - ys i) * (q - xs i) / (xs (i + 1) - xs i)

/- ## plot_cm1: the GRaDS column reader surface (skewt.py lines 293-315) -/

/-- The array-building tail of plot_cm1: given the six column arrays read
from the CM1 GRaDS output for one horizontal gridpoint (heights already in
meters), build the six length nk+1 arrays with the synthesized surface level
at index 0, exactly as skewt.py lines 293-313 do.  Result order:
(th, p, u, v, qv, z). -/
def plot_cm1_column (th p u v qv z : List ℝ) :
    List ℝ × List ℝ × List ℝ × List ℝ × List ℝ × List ℝ :=
  (300 :: th, 100000 :: p, u.headI :: u, v.headI :: v, 0.014 :: qv, 0 :: z)

/-- C1: for every CM1 GRaDS column with nk model levels, the six arrays built
by plot_cm1 have length nk+1, the synthesized surface level at index 0 has
p = 100000 Pa, th = 300 K, qv = 0.014 kg/kg, z = 0 m and winds equal to the
first model level, and the original model levels sit unchanged at
indices 1..nk. -/
theorem plot_cm1_surface_synthesis (th p u v qv z : List ℝ) (nk : ℕ)
    (hth : th.length = nk) (hp : p.length = nk) (hu : u.length = nk)
    (hv : v.length = nk) (hqv : qv.length = nk) (hz : z.length = nk)
    (hnk : 1 ≤ nk) :
    (plot_cm1_column th p u v qv z).1.length = nk + 1 ∧
    (plot_cm1_column th p u v qv z).2.1.length = nk + 1 ∧
    (plot_cm1_column th p u v qv z).2.2.1.length = nk + 1 ∧
    (plot_cm1_column th p u v qv z).2.2.2.1.length = nk + 1 ∧
    (plot_cm1_column th p u v qv z).2.2.2.2.1.length = nk + 1 ∧
    (plot_cm1_column th p u v qv z).2.2.2.2.2.length = nk + 1 ∧
    (plot_cm1_column th p u v qv z).1.getD 0 0 = 300 ∧
    (plot_cm1_column th p u v qv z).2.1.getD 0 0 = 100000 ∧
    (plot_cm1_column th p u v qv z).2.2.2.2.1.getD 0 0 = 0.014 ∧
    (plot_cm1_column th p u v qv z).2.2.2.2.2.getD 0 0 = 0 ∧
    (plot_cm1_column th p u v qv z).2.2.1.getD 0 0 =
      (plot_cm1_column th p u v qv z).2.2.1.getD 1 0 ∧
    (plot_cm1_column th p u v qv z).2.2.2.1.getD 0 0 =
      (plot_cm1_column th p u v qv z).2.2.2.1.getD 1 0 ∧
    (∀ i, i < nk →
      (plot_cm1_column th p u v qv z).1.getD (i + 1) 0 = th.getD i 0 ∧
      (plot_cm1_column th p u v qv z).2.1.getD (i + 1) 0 = p.getD i 0 ∧
      (plot_cm1_column th p u v qv z).2.2.1.getD (i + 1) 0 = u.getD i 0 ∧
      (plot_cm1_column th p u v qv z).2.2.2.1.getD (i + 1) 0 = v.getD i 0 ∧
      (plot_cm1_column th p u v qv z).2.2.2.2.1.getD (i + 1) 0 = qv.getD i 0 ∧
      (plot_cm1_column th p u v qv z).2.2.2.2.2.getD (i + 1) 0 = z.getD i 0) := by
  have hune : u ≠ [] := by
    intro h
    rw [h] at hu
    simp at hu
    omega
  obtain ⟨a, t, rfl⟩ := List.exists_cons_of_ne_nil hune
  refine ⟨by simp [plot_cm1_column, hth], by simp [plot_cm1_column, hp],
    by simp [plot_cm1_column, hu], by simp [plot_cm1_column, hv],
    by simp [plot_cm1_column, hqv], by simp [plot_cm1_column, hz],
    rfl, rfl, rfl, rfl, by simp [plot_cm1_column], ?_, ?_⟩
  · rcases v with _ | ⟨b, tv⟩
    · simp at hv
      omega
    · simp [plot_cm1_column]
  · intro i _
    simp [plot_cm1_column]

/-- Witness for C1 at a concrete one-level column. -/
theorem plot_cm1_surface_synthesis_witness :
    [(250 : ℝ)].length = 1 ∧
    (plot_cm1_column [250] [90000] [3] [4] [0.01] [500]).2.2.1.getD 0 0 =
      (plot_cm1_column [250] [90000] [3] [4] [0.01] [500]).2.2.1.getD 1 0 :=
  ⟨rfl, (plot_cm1_surface_synthesis [250] [90000] [3] [4] [0.01] [500] 1
    rfl rfl rfl rfl rfl rfl le_rfl).2.2.2.2.2.2.2.2.2.2.1⟩

/- ## plot_sounding_data: the text sounding reader (skewt.py lines 184-255) -/

/-- The missing-wind test of plot_sounding_data: a level is treated as
missing exactly when both the wind-direction and the wind-speed fields carry
the sentinel -9999.0 (skewt.py lines 198 and 210). -/
def missingWind (wdir wspd : ℕ → ℝ) (k : ℕ) : Prop :=
  wdir k = -9999 ∧ wspd k = -9999

noncomputable instance missingWindDec (wdir wspd : ℕ → ℝ) :
    DecidablePred (missingWind wdir wspd) := fun _ => by
  unfold missingWind
  infer_instance

/-- The downward scan of the gap-fill loop (skewt.py lines 211-213): kb
starts at the missing level and is decremented while it is at least 0 and
still missing; the Python int may end at -1. -/
noncomputable def kbScan (mu : ℕ → Prop) [DecidablePred mu] : ℕ → ℤ
  | 0 => if mu 0 then -1 else 0
  | k + 1 => if mu (k + 1) then kbScan mu k else (k + 1 : ℤ)

/-- The upward scan of the gap-fill loop (skewt.py lines 214-215): ke starts
at the missing level and is incremented while it is at most nk-1 and still
missing; it may end at nk, one past the last array index. -/
noncomputable def keScan (mu : ℕ → Prop) [DecidablePred mu] (nk : ℕ) (k : ℕ) : ℕ :=
  if h : nk ≤ k then k
  else if mu k then keScan mu nk (k + 1) else k
termination_by nk - k
decreasing_by omega

/-- Modelled from the spec: conversion of a meteorological (direction in
degrees, speed) wind observation to eastward and northward components whose
vector magnitude is the speed (pymeteo.dynamics.wind_deg_to_uv, not under
src/; the spec fixes only that the reader yields u and v component arrays). -/
noncomputable def wind_deg_to_uv (wdir wspd : ℝ) : ℝ × ℝ :=
  (-wspd * Real.sin (wdir * Real.pi / 180), -wspd * Real.cos (wdir * Real.pi / 180))

/-- The first conversion loop of plot_sounding_data (skewt.py lines 197-201):
missing levels receive the sentinel -9999, valid levels the u component of
wind_deg_to_uv. -/
noncomputable def soundingInitU (wdir wspd : ℕ → ℝ) : ℕ → ℝ := fun k =>
  if missingWind wdir wspd k then -9999 else (wind_deg_to_uv (wdir k) (wspd k)).1

/-- The v-component half of the first conversion loop of plot_sounding_data
(skewt.py lines 197-201). -/
noncomputable def soundingInitV (wdir wspd : ℕ → ℝ) : ℕ → ℝ := fun k =>
  if missingWind wdir wspd k then -9999 else (wind_deg_to_uv (wdir k) (wspd k)).2

/-- One iteration of the wind gap-fill loop of plot_sounding_data (skewt.py
lines 209-234) at level k, acting on the pair of wind arrays.  A missing
level is filled from the scan results kb and ke: when both are in bounds the
source builds the two-point arrays _z, _u, _v and calls
pymeteo.interp.linear on them; when kb is negative the source copies u[ke],
an access that is out of bounds (numpy IndexError) whenever ke = nk, which
the embedding returns as none; when ke is past the end the source copies
u[kb], whose index is always in bounds since 0 <= kb <= k < nk. -/
noncomputable def gapFillStep (z wdir wspd : ℕ → ℝ) (nk : ℕ)
    (s : (ℕ → ℝ) × (ℕ → ℝ)) (k : ℕ) : Option ((ℕ → ℝ) × (ℕ → ℝ)) :=
  if missingWind wdir wspd k then
    if 0 ≤ kbScan (missingWind wdir wspd) k ∧ keScan (missingWind wdir wspd) nk k < nk then
      some (Function.update s.1 k
              (interpInc 2
                (fun i => if i = 0 then z (kbScan (missingWind wdir wspd) k).toNat
                          else z (keScan (missingWind wdir wspd) nk k))
                (fun i => if i = 0 then s.1 (kbScan (missingWind wdir wspd) k).toNat
                          else s.1 (keScan (missingWind wdir wspd) nk k))
                (z k)),
            Function.update s.2 k
              (interpInc 2
                (fun i => if i = 0 then z (kbScan (missingWind wdir wspd) k).toNat
                          else z (keScan (missingWind wdir wspd) nk k))
                (fun i => if i = 0 then s.2 (kbScan (missingWind wdir wspd) k).toNat
                          else s.2 (keScan (missingWind wdir wspd) nk k))
                (z k)))
    else if kbScan (missingWind wdir wspd) k < 0 then
      if keScan (missingWind wdir wspd) nk k < nk then
        some (Function.update s.1 k (s.1 (keScan (missingWind wdir wspd) nk k)),
              Function.update s.2 k (s.2 (keScan (missingWind wdir wspd) nk k)))
      else none
    else if nk ≤ keScan (missingWind wdir wspd) nk k then
      some (Function.update s.1 k (s.1 (kbScan (missingWind wdir wspd) k).toNat),
            Function.update s.2 k (s.2 (kbScan (missingWind wdir wspd) k).toNat))
    else some s
  else some s

/-- The gap-fill loop of plot_sounding_data over a list of level indices,
with the state threaded explicitly and an out-of-bounds access aborting the
run (skewt.py lines 209-234). -/
noncomputable def gapFillList (z wdir wspd : ℕ → ℝ) (nk : ℕ) :
    (ℕ → ℝ) × (ℕ → ℝ) → List ℕ → Option ((ℕ → ℝ) × (ℕ → ℝ))
  | s, [] => some s
  | s, k :: ks =>
    (gapFillStep z wdir wspd nk s k).bind fun t => gapFillList z wdir wspd nk t ks

/-- The full wind gap-fill pass of plot_sounding_data: the loop over
k in range nk (skewt.py lines 209-234). -/
noncomputable def gapFill (nk : ℕ) (z wdir wspd u v : ℕ → ℝ) :
    Option ((ℕ → ℝ) × (ℕ → ℝ)) :=
  gapFillList z wdir wspd nk (u, v) (List.range nk)

/-- The complete wind pipeline of plot_sounding_data (skewt.py
lines 193-239): sentinel classification and wind_deg_to_uv conversion, the
gap-fill pass, and the final scaling of every level by 0.5144444 (the
knots-to-m/s factor of line 237-239).  Indices at or above nk fall outside
the numpy arrays and are meaningless here. -/
noncomputable def soundingWinds (nk : ℕ) (z wdir wspd : ℕ → ℝ) :
    Option ((ℕ → ℝ) × (ℕ → ℝ)) :=
  (gapFill nk z wdir wspd (soundingInitU wdir wspd) (soundingInitV wdir wspd)).map
    fun s => (fun k => s.1 k * 0.5144444, fun k => s.2 k * 0.5144444)

/-- The per-level theta and qv computation of plot_sounding_data (skewt.py
lines 246-250): T and Td are in Celsius as read from the file, and qv is
0.622 * pp * w with w = es(Td+T00)/es(T+T00) and pp = es(T+T00)/p. -/
noncomputable def sounding_thqv (T Td p : ℝ) : ℝ × ℝ :=
  (met_theta (T + T00) p,
   0.622 * (met_es (T + T00) / p) * (met_es (Td + T00) / met_es (T + T00)))

/- ## Lemmas about the gap-fill scans -/

lemma kbScan_all_missing (mu : ℕ → Prop) [DecidablePred mu] (k : ℕ)
    (h : ∀ j, j ≤ k → mu j) : kbScan mu k = -1 := by
  induction k with
  | zero => simp [kbScan, h 0 le_rfl]
  | succ k ih =>
    rw [kbScan, if_pos (h (k + 1) le_rfl)]
    exact ih fun j hj => h j (hj.trans (Nat.le_succ k))

lemma kbScan_eq (mu : ℕ → Prop) [DecidablePred mu] (k b : ℕ)
    (hb : ¬ mu b) (hbk : b ≤ k) (hmid : ∀ j, b < j → j ≤ k → mu j) :
    kbScan mu k = (b : ℤ) := by
  induction k with
  | zero =>
    have : b = 0 := Nat.le_zero.mp hbk
    subst this
    simp [kbScan, hb]
  | succ k ih =>
    rcases Nat.lt_or_ge b (k + 1) with h | h
    · rw [kbScan, if_pos (hmid (k + 1) h le_rfl)]
      exact ih (Nat.lt_succ_iff.mp h) fun j hj hjk => hmid j hj (hjk.trans (Nat.le_succ k))
    · have : b = k + 1 := le_antisymm hbk h
      subst this
      rw [kbScan, if_neg hb]
      push_cast
      ring

lemma kbScan_nonneg (mu : ℕ → Prop) [DecidablePred mu] (k : ℕ)
    (h : ∃ j, j ≤ k ∧ ¬ mu j) : 0 ≤ kbScan mu k := by
  induction k with
  | zero =>
    obtain ⟨j, hj, hmu⟩ := h
    have : j = 0 := Nat.le_zero.mp hj
    subst this
    simp [kbScan, hmu]
  | succ k ih =>
    rw [kbScan]
    by_cases hk : mu (k + 1)
    · rw [if_pos hk]
      obtain ⟨j, hj, hmu⟩ := h
      have : j ≤ k := by
        rcases Nat.lt_or_ge j (k + 1) with h2 | h2
        · exact Nat.lt_succ_iff.mp h2
        · exact absurd hk (by rwa [le_antisymm hj h2] at hmu)
      exact ih ⟨j, this, hmu⟩
    · rw [if_neg hk]
      positivity

lemma keScan_all_missing (mu : ℕ → Prop) [DecidablePred mu] (nk k : ℕ)
    (hk : k ≤ nk) (h : ∀ j, k ≤ j → j < nk → mu j) : keScan mu nk k = nk := by
  have H : ∀ m j, nk - j = m → j ≤ nk → (∀ i, j ≤ i → i < nk → mu i) →
      keScan mu nk j = nk := by
    intro m
    induction m with
    | zero =>
      intro j hm _ _
      have : j = nk := by omega
      subst this
      rw [keScan, dif_pos le_rfl]
    | succ m ih =>
      intro j hm hj h2
      have hlt : j < nk := by omega
      rw [keScan, dif_neg (by omega), if_pos (h2 j le_rfl hlt)]
      exact ih (j + 1) (by omega) hlt fun i hi => h2 i (by omega)
  exact H (nk - k) k rfl hk h

lemma keScan_eq (mu : ℕ → Prop) [DecidablePred mu] (nk k e : ℕ)
    (he : ¬ mu e) (hke : k ≤ e) (hen : e < nk)
    (hmid : ∀ j, k ≤ j → j < e → mu j) : keScan mu nk k = e := by
  have H : ∀ m j, e - j = m → j ≤ e → (∀ i, j ≤ i → i < e → mu i) →
      keScan mu nk j = e := by
    intro m
    induction m with
    | zero =>
      intro j hm _ _
      have : j = e := by omega
      subst this
      rw [keScan, dif_neg (by omega), if_neg he]
    | succ m ih =>
      intro j hm hj h2
      have hlt : j < e := by omega
      rw [keScan, dif_neg (by omega), if_pos (h2 j le_rfl hlt)]
      exact ih (j + 1) (by omega) hlt fun i hi => h2 i (by omega)
  exact H (e - k) k rfl hke hmid

lemma keScan_lt (mu : ℕ → Prop) [DecidablePred mu] (nk k : ℕ)
    (h : ∃ j, k ≤ j ∧ j < nk ∧ ¬ mu j) : keScan mu nk k < nk := by
  have H : ∀ m i, nk - i = m → (∃ j, i ≤ j ∧ j < nk ∧ ¬ mu j) →
      keScan mu nk i < nk := by
    intro m
    induction m with
    | zero =>
      intro i hm hex
      obtain ⟨j, hj1, hj2, _⟩ := hex
      omega
    | succ m ih =>
      intro i hm hex
      obtain ⟨j, hj1, hj2, hmu⟩ := hex
      rw [keScan, dif_neg (by omega)]
      by_cases hk : mu i
      · rw [if_pos hk]
        have hjk : i + 1 ≤ j := by
          rcases Nat.eq_or_lt_of_le hj1 with h2 | h2
          · exact absurd hk (by rw [h2]; exact hmu)
          · exact h2
        exact ih (i + 1) (by omega) ⟨j, hjk, hj2, hmu⟩
      · rw [if_neg hk]
        omega
  exact H (nk - k) k rfl h

/- ## Lemmas about the gap-fill pass -/

lemma gapFillStep_not_missing (z wdir wspd : ℕ → ℝ) (nk : ℕ)
    (s : (ℕ → ℝ) × (ℕ → ℝ)) (k : ℕ) (h : ¬ missingWind wdir wspd k) :
    gapFillStep z wdir wspd nk s k = some s := by
  rw [gapFillStep, if_neg h]

lemma gapFillStep_ne (z wdir wspd : ℕ → ℝ) (nk : ℕ)
    (s t : (ℕ → ℝ) × (ℕ → ℝ)) (k j : ℕ) (hj : j ≠ k)
    (h : gapFillStep z wdir wspd nk s k = some t) :
    t.1 j = s.1 j ∧ t.2 j = s.2 j := by
  unfold gapFillStep at h
  split_ifs at h with h1 h2 h3 h4 h5
  all_goals
    first
      | (simp only [Option.some.injEq] at h
         subst h
         exact ⟨Function.update_noteq hj _ _, Function.update_noteq hj _ _⟩)
      | (simp only [Option.some.injEq] at h
         subst h
         exact ⟨rfl, rfl⟩)
      | (exact absurd h (by simp))

lemma gapFillStep_isSome (z wdir wspd : ℕ → ℝ) (nk : ℕ)
    (s : (ℕ → ℝ) × (ℕ → ℝ)) (k : ℕ)
    (hex : ∃ j, j < nk ∧ ¬ missingWind wdir wspd j) :
    (gapFillStep z wdir wspd nk s k).isSome := by
  unfold gapFillStep
  split_ifs with h1 h2 h3 h4 h5 <;> try simp
  obtain ⟨j, hjn, hnm⟩ := hex
  rcases le_or_lt j k with hle | hlt
  · exact absurd (kbScan_nonneg _ k ⟨j, hle, hnm⟩) (not_le.mpr h3)
  · exact h4 (keScan_lt _ nk k ⟨j, hlt.le, hjn, hnm⟩)

lemma gapFillList_ne (z wdir wspd : ℕ → ℝ) (nk : ℕ) (l : List ℕ)
    (s t : (ℕ → ℝ) × (ℕ → ℝ)) (j : ℕ) (hj : ∀ a ∈ l, a ≠ j)
    (h : gapFillList z wdir wspd nk s l = some t) :
    t.1 j = s.1 j ∧ t.2 j = s.2 j := by
  induction l generalizing s with
  | nil =>
    simp only [gapFillList, Option.some.injEq] at h
    subst h
    exact ⟨rfl, rfl⟩
  | cons a l ih =>
    simp only [gapFillList] at h
    obtain ⟨m, hm, hrest⟩ := Option.bind_eq_some.mp h
    have h1 := gapFillStep_ne z wdir wspd nk s m a j
      (Ne.symm (hj a (List.mem_cons_self a l))) hm
    have h2 := ih m (fun b hb => hj b (List.mem_cons_of_mem a hb)) hrest
    exact ⟨h2.1.trans h1.1, h2.2.trans h1.2⟩

lemma gapFillList_not_missing (z wdir wspd : ℕ → ℝ) (nk : ℕ) (l : List ℕ)
    (s t : (ℕ → ℝ) × (ℕ → ℝ)) (j : ℕ) (hnm : ¬ missingWind wdir wspd j)
    (h : gapFillList z wdir wspd nk s l = some t) :
    t.1 j = s.1 j ∧ t.2 j = s.2 j := by
  induction l generalizing s with
  | nil =>
    simp only [gapFillList, Option.some.injEq] at h
    subst h
    exact ⟨rfl, rfl⟩
  | cons a l ih =>
    simp only [gapFillList] at h
    obtain ⟨m, hm, hrest⟩ := Option.bind_eq_some.mp h
    by_cases haj : a = j
    · subst haj
      rw [gapFillStep_not_missing z wdir wspd nk s a hnm] at hm
      simp only [Option.some.injEq] at hm
      subst hm
      exact ih s hrest
    · have h1 := gapFillStep_ne z wdir wspd nk s m a j (fun hh => haj hh.symm) hm
      have h2 := ih m hrest
      exact ⟨h2.1.trans h1.1, h2.2.trans h1.2⟩

lemma gapFillList_isSome (z wdir wspd : ℕ → ℝ) (nk : ℕ) (l : List ℕ)
    (s : (ℕ → ℝ) × (ℕ → ℝ))
    (hex : ∃ j, j < nk ∧ ¬ missingWind wdir wspd j) :
    (gapFillList z wdir wspd nk s l).isSome := by
  induction l generalizing s with
  | nil => simp [gapFillList]
  | cons a l ih =>
    simp only [gapFillList]
    obtain ⟨m, hm⟩ := Option.isSome_iff_exists.mp
      (gapFillStep_isSome z wdir wspd nk s a hex)
    rw [hm]
    simpa using ih m

lemma gapFillList_append (z wdir wspd : ℕ → ℝ) (nk : ℕ) (l1 l2 : List ℕ)
    (s : (ℕ → ℝ) × (ℕ → ℝ)) :
    gapFillList z wdir wspd nk s (l1 ++ l2) =
      (gapFillList z wdir wspd nk s l1).bind
        fun t => gapFillList z wdir wspd nk t l2 := by
  induction l1 generalizing s with
  | nil => simp [gapFillList]
  | cons a l ih =>
    simp only [List.cons_append, gapFillList]
    cases gapFillStep z wdir wspd nk s a with
    | none => simp
    | some m => simp [ih m]

lemma range_split (nk k : ℕ) (hk : k < nk) :
    List.range nk =
      List.range k ++ k :: (List.range (nk - k - 1)).map (fun j => k + 1 + j) := by
  conv_lhs => rw [show nk = k + 1 + (nk - k - 1) from by omega]
  rw [List.range_add, List.range_succ, List.append_assoc, List.singleton_append]

lemma interpInc_two (x0 x1 y0 y1 q : ℝ) :
    interpInc 2 (fun i => if i = 0 then x0 else x1)
      (fun i => if i = 0 then y0 else y1) q =
      y0 + (y1 - y0) * (q - x0) / (x1 - x0) := by
  simp [interpInc, bracketAux]

lemma gapFill_value_at (nk : ℕ) (z wdir wspd u v : ℕ → ℝ) (k : ℕ) (hk : k < nk)
    (t : (ℕ → ℝ) × (ℕ → ℝ)) (h : gapFill nk z wdir wspd u v = some t) :
    ∃ s1 s2, gapFillList z wdir wspd nk (u, v) (List.range k) = some s1 ∧
      gapFillStep z wdir wspd nk s1 k = some s2 ∧
      t.1 k = s2.1 k ∧ t.2 k = s2.2 k ∧
      (∀ j, ¬ missingWind wdir wspd j → s1.1 j = u j ∧ s1.2 j = v j) := by
  unfold gapFill at h
  rw [range_split nk k hk, gapFillList_append] at h
  obtain ⟨s1, h1, hrest⟩ := Option.bind_eq_some.mp h
  simp only [gapFillList] at hrest
  obtain ⟨s2, h2, htail⟩ := Option.bind_eq_some.mp hrest
  have h3 := gapFillList_ne z wdir wspd nk _ s2 t k
    (by
      intro a ha
      obtain ⟨j, _, rfl⟩ := List.mem_map.mp ha
      omega) htail
  exact ⟨s1, s2, h1, h2, h3.1, h3.2,
    fun j hj => gapFillList_not_missing z wdir wspd nk _ (u, v) s1 j hj h1⟩

/-- C2: in the gap-fill pass of plot_sounding_data, a level marked missing by
the double -9999 sentinel receives the linear interpolation in height
between the nearest non-missing levels below and above; with no non-missing
level below (respectively above) the value of the nearest non-missing level
above (respectively below) is copied unchanged; non-missing levels are left
untouched; and the pass completes whenever at least one level is
non-missing. -/
theorem plot_sounding_data_gapfill (nk : ℕ) (z wdir wspd u v : ℕ → ℝ)
    (k : ℕ) (hk : k < nk) :
    (¬ missingWind wdir wspd k →
      ∀ t, gapFill nk z wdir wspd u v = some t → t.1 k = u k ∧ t.2 k = v k) ∧
    (missingWind wdir wspd k →
      (∀ b e, ¬ missingWind wdir wspd b → b < k →
        (∀ j, b < j → j ≤ k → missingWind wdir wspd j) →
        ¬ missingWind wdir wspd e → k < e → e < nk →
        (∀ j, k ≤ j → j < e → missingWind wdir wspd j) →
        ∀ t, gapFill nk z wdir wspd u v = some t →
          t.1 k = u b + (u e - u b) * (z k - z b) / (z e - z b) ∧
          t.2 k = v b + (v e - v b) * (z k - z b) / (z e - z b)) ∧
      ((∀ j, j ≤ k → missingWind wdir wspd j) →
        ∀ e, ¬ missingWind wdir wspd e → k < e → e < nk →
        (∀ j, k ≤ j → j < e → missingWind wdir wspd j) →
        ∀ t, gapFill nk z wdir wspd u v = some t →
          t.1 k = u e ∧ t.2 k = v e) ∧
      ((∀ j, k ≤ j → j < nk → missingWind wdir wspd j) →
        ∀ b, ¬ missingWind wdir wspd b → b < k →
        (∀ j, b < j → j ≤ k → missingWind wdir wspd j) →
        ∀ t, gapFill nk z wdir wspd u v = some t →
          t.1 k = u b ∧ t.2 k = v b)) ∧
    ((∃ j, j < nk ∧ ¬ missingWind wdir wspd j) →
      (gapFill nk z wdir wspd u v).isSome) := by
  refine ⟨?_, ?_, ?_⟩
  · intro hnm t ht
    exact gapFillList_not_missing z wdir wspd nk _ (u, v) t k hnm ht
  · intro hmiss
    refine ⟨?_, ?_, ?_⟩
    · intro b e hb hbk hmidb he hke hen hmide t ht
      obtain ⟨s1, s2, h1, h2, ht1, ht2, hagree⟩ :=
        gapFill_value_at nk z wdir wspd u v k hk t ht
      have hkb : kbScan (missingWind wdir wspd) k = (b : ℤ) :=
        kbScan_eq _ k b hb hbk.le hmidb
      have hkee : keScan (missingWind wdir wspd) nk k = e :=
        keScan_eq _ nk k e he hke.le hen hmide
      rw [gapFillStep, if_pos hmiss, hkb, hkee,
        if_pos ⟨Int.natCast_nonneg b, hen⟩] at h2
      simp only [Option.some.injEq] at h2
      subst h2
      simp only [Function.update_same, Int.toNat_natCast] at ht1 ht2
      rw [interpInc_two] at ht1 ht2
      rw [(hagree b hb).1, (hagree e he).1] at ht1
      rw [(hagree b hb).2, (hagree e he).2] at ht2
      exact ⟨ht1, ht2⟩
    · intro hbelow e he hke hen hmide t ht
      obtain ⟨s1, s2, h1, h2, ht1, ht2, hagree⟩ :=
        gapFill_value_at nk z wdir wspd u v k hk t ht
      have hkb : kbScan (missingWind wdir wspd) k = -1 :=
        kbScan_all_missing _ k hbelow
      have hkee : keScan (missingWind wdir wspd) nk k = e :=
        keScan_eq _ nk k e he hke.le hen hmide
      rw [gapFillStep, if_pos hmiss, hkb, hkee,
        if_neg (by omega), if_pos (by norm_num), if_pos hen] at h2
      simp only [Option.some.injEq] at h2
      subst h2
      simp only [Function.update_same] at ht1 ht2
      rw [(hagree e he).1] at ht1
      rw [(hagree e he).2] at ht2
      exact ⟨ht1, ht2⟩
    · intro habove b hb hbk hmidb t ht
      obtain ⟨s1, s2, h1, h2, ht1, ht2, hagree⟩ :=
        gapFill_value_at nk z wdir wspd u v k hk t ht
      have hkb : kbScan (missingWind wdir wspd) k = (b : ℤ) :=
        kbScan_eq _ k b hb hbk.le hmidb
      have hkee : keScan (missingWind wdir wspd) nk k = nk :=
        keScan_all_missing _ nk k hk.le habove
      rw [gapFillStep, if_pos hmiss, hkb, hkee,
        if_neg (by omega), if_neg (not_lt.mpr (Int.natCast_nonneg b)), if_pos le_rfl] at h2
      simp only [Option.some.injEq] at h2
      subst h2
      simp only [Function.update_same, Int.toNat_natCast] at ht1 ht2
      rw [(hagree b hb).1] at ht1
      rw [(hagree b hb).2] at ht2
      exact ⟨ht1, ht2⟩
  · intro hex
    exact gapFillList_isSome z wdir wspd nk _ (u, v) hex

/-- Witness for C2: a three-level sounding whose middle level has both wind
fields at the sentinel gets the height-weighted average of its neighbors. -/
theorem plot_sounding_data_gapfill_witness :
    (gapFill 3 (fun j => (100 : ℝ) * j) (fun j => if j = 1 then -9999 else 30)
        (fun j => if j = 1 then -9999 else 10) (fun j => (2 : ℝ) * j)
        (fun _ => (5 : ℝ))).map (fun s => (s.1 1, s.2 1)) =
      some ((2 : ℝ), (5 : ℝ)) := by
  have hth := plot_sounding_data_gapfill 3 (fun j => (100 : ℝ) * j)
    (fun j => if j = 1 then -9999 else 30) (fun j => if j = 1 then -9999 else 10)
    (fun j => (2 : ℝ) * j) (fun _ => (5 : ℝ)) 1 (by norm_num)
  obtain ⟨t, ht⟩ := Option.isSome_iff_exists.mp
    (hth.2.2 ⟨0, by norm_num, by norm_num [missingWind]⟩)
  have hc := (hth.2.1 (by norm_num [missingWind])).1 0 2
    (by norm_num [missingWind]) (by norm_num)
    (by
      intro j h1 h2
      interval_cases j
      norm_num [missingWind])
    (by norm_num [missingWind]) (by norm_num) (by norm_num)
    (by
      intro j h1 h2
      interval_cases j
      norm_num [missingWind])
    t ht
  have h1 : t.1 1 = 2 := by
    rw [hc.1]
    norm_num
  have h2 : t.2 1 = 5 := by
    rw [hc.2]
    norm_num
  rw [ht]
  simp [h1, h2]

/-- C8: a sounding level is classified as missing only when both wind fields
equal -9999; a level where exactly one of the two equals -9999 is treated as
a valid observation, converted by wind_deg_to_uv, and left untouched by the
gap-fill pass. -/
theorem sounding_missing_requires_both (nk k : ℕ) (z wdir wspd : ℕ → ℝ)
    (hk : k < nk)
    (hxor : (wdir k = -9999 ∧ wspd k ≠ -9999) ∨
            (wdir k ≠ -9999 ∧ wspd k = -9999)) :
    ¬ missingWind wdir wspd k ∧
    soundingInitU wdir wspd k = (wind_deg_to_uv (wdir k) (wspd k)).1 ∧
    soundingInitV wdir wspd k = (wind_deg_to_uv (wdir k) (wspd k)).2 ∧
    ∀ t, gapFill nk z wdir wspd (soundingInitU wdir wspd)
        (soundingInitV wdir wspd) = some t →
      t.1 k = (wind_deg_to_uv (wdir k) (wspd k)).1 ∧
      t.2 k = (wind_deg_to_uv (wdir k) (wspd k)).2 := by
  have hnm : ¬ missingWind wdir wspd k := by
    rcases hxor with ⟨h1, h2⟩ | ⟨h1, h2⟩
    · exact fun hm => h2 hm.2
    · exact fun hm => h1 hm.1
  have hU : soundingInitU wdir wspd k = (wind_deg_to_uv (wdir k) (wspd k)).1 := by
    simp only [soundingInitU]
    rw [if_neg hnm]
  have hV : soundingInitV wdir wspd k = (wind_deg_to_uv (wdir k) (wspd k)).2 := by
    simp only [soundingInitV]
    rw [if_neg hnm]
  refine ⟨hnm, hU, hV, ?_⟩
  intro t ht
  unfold gapFill at ht
  have h := gapFillList_not_missing z wdir wspd nk _
    (soundingInitU wdir wspd, soundingInitV wdir wspd) t k hnm ht
  exact ⟨h.1.trans hU, h.2.trans hV⟩

/-- Witness for C8: a level whose direction field is the sentinel but whose
speed field is not counts as a valid observation. -/
theorem sounding_missing_requires_both_witness :
    ¬ missingWind (fun _ => (-9999 : ℝ)) (fun _ => (20 : ℝ)) 0 ∧
    soundingInitU (fun _ => (-9999 : ℝ)) (fun _ => (20 : ℝ)) 0 =
      (wind_deg_to_uv (-9999) 20).1 :=
  have h := sounding_missing_requires_both 1 0 (fun _ => 0)
    (fun _ => (-9999 : ℝ)) (fun _ => (20 : ℝ)) (by norm_num)
    (Or.inl ⟨rfl, by norm_num⟩)
  ⟨h.1, h.2.1⟩

/-- Counterexample for C9: on a one-level sounding whose wind fields are both
the sentinel, plot_sounding_data does not propagate the sentinel into output
arrays; the gap-fill loop takes the kb < 0 branch with ke = nk out of
bounds, so the embedded pipeline aborts (numpy IndexError) and produces no
arrays at all. -/
theorem sounding_all_missing_counterexample :
    soundingWinds 1 (fun _ => (0 : ℝ)) (fun _ => (-9999 : ℝ))
      (fun _ => (-9999 : ℝ)) = none := by
  have h0 : missingWind (fun _ => (-9999 : ℝ)) (fun _ => (-9999 : ℝ)) 0 := ⟨rfl, rfl⟩
  have hkb : kbScan (missingWind (fun _ => (-9999 : ℝ)) (fun _ => (-9999 : ℝ))) 0 = -1 := by
    simp [kbScan, h0]
  have hke : keScan (missingWind (fun _ => (-9999 : ℝ)) (fun _ => (-9999 : ℝ))) 1 0 = 1 :=
    keScan_all_missing _ 1 0 (by norm_num)
      (by
        intro j _ hj
        interval_cases j
        exact h0)
  have hstep : gapFillStep (fun _ => (0 : ℝ)) (fun _ => (-9999 : ℝ))
      (fun _ => (-9999 : ℝ)) 1
      (soundingInitU (fun _ => (-9999 : ℝ)) (fun _ => (-9999 : ℝ)),
       soundingInitV (fun _ => (-9999 : ℝ)) (fun _ => (-9999 : ℝ))) 0 = none := by
    rw [gapFillStep, if_pos h0, hkb, hke, if_neg (by omega),
      if_pos (by norm_num), if_neg (by omega)]
  unfold soundingWinds gapFill
  rw [show List.range 1 = [0] from rfl]
  simp only [gapFillList]
  rw [hstep]
  rfl

/-- C9 (amended): if every level of the sounding has both wind fields equal
to the -9999 sentinel, the first gap-fill iteration finds kb = -1 and
ke = nk, so the kb < 0 edge branch applies with ke out of bounds and the
read of u[ke] aborts the pass (IndexError); no sentinel values reach the
output arrays because no output is produced. -/
theorem sounding_all_missing_aborts (nk : ℕ) (z wdir wspd : ℕ → ℝ)
    (hnk : 1 ≤ nk) (hall : ∀ k, k < nk → missingWind wdir wspd k) :
    soundingWinds nk z wdir wspd = none := by
  obtain ⟨m, rfl⟩ : ∃ m, nk = m + 1 := ⟨nk - 1, by omega⟩
  have h0 : missingWind wdir wspd 0 := hall 0 (by omega)
  have hkb : kbScan (missingWind wdir wspd) 0 = -1 := by simp [kbScan, h0]
  have hke : keScan (missingWind wdir wspd) (m + 1) 0 = m + 1 :=
    keScan_all_missing _ (m + 1) 0 (by omega) fun j _ hj => hall j hj
  have hstep : gapFillStep z wdir wspd (m + 1)
      (soundingInitU wdir wspd, soundingInitV wdir wspd) 0 = none := by
    rw [gapFillStep, if_pos h0, hkb, hke, if_neg (by omega),
      if_pos (by norm_num), if_neg (by omega)]
  unfold soundingWinds gapFill
  rw [List.range_succ_eq_map]
  simp only [gapFillList]
  rw [hstep]
  rfl

/-- Witness for the amended C9 on a two-level all-missing sounding. -/
theorem sounding_all_missing_aborts_witness :
    soundingWinds 2 (fun _ => (1 : ℝ)) (fun _ => (-9999 : ℝ))
      (fun _ => (-9999 : ℝ)) = none :=
  sounding_all_missing_aborts 2 _ _ _ (by norm_num) fun _ _ => ⟨rfl, rfl⟩

/-- C3: evaluation of the wind pipeline at the failing input.  The sounding
file format documented by plot_sounding_data gives wind speed in m/s, yet
lines 236-239 scale the converted components by the knots-to-m/s factor
0.5144444; for a one-level file with direction 180 degrees and speed 10 the
produced wind vector has magnitude 5.144444, not the 10 m/s the claim (and
the docstring) demand. -/
theorem sounding_wind_unit_bug :
    (soundingWinds 1 (fun _ => (0 : ℝ)) (fun _ => (180 : ℝ))
        (fun _ => (10 : ℝ))).map
      (fun s => Real.sqrt ((s.1 0) ^ 2 + (s.2 0) ^ 2)) = some 5.144444 ∧
    (5.144444 : ℝ) ≠ 10 := by
  constructor
  · have hnm : ¬ missingWind (fun _ => (180 : ℝ)) (fun _ => (10 : ℝ)) 0 := by
      intro h
      have := h.1
      norm_num at this
    have hsin : Real.sin ((180 : ℝ) * Real.pi / 180) = 0 := by
      rw [show (180 : ℝ) * Real.pi / 180 = Real.pi from by ring]
      exact Real.sin_pi
    have hcos : Real.cos ((180 : ℝ) * Real.pi / 180) = -1 := by
      rw [show (180 : ℝ) * Real.pi / 180 = Real.pi from by ring]
      exact Real.cos_pi
    unfold soundingWinds gapFill
    rw [show List.range 1 = [0] from rfl]
    simp only [gapFillList]
    rw [gapFillStep_not_missing _ _ _ _ _ 0 hnm]
    simp only [Option.some_bind, gapFillList, Option.map_some]
    refine congrArg some ?_
    simp only [soundingInitU, soundingInitV, wind_deg_to_uv]
    rw [if_neg hnm, if_neg hnm, hsin, hcos]
    rw [show (-10 * (0 : ℝ) * 0.5144444) ^ 2 + (-10 * (-1 : ℝ) * 0.5144444) ^ 2 =
      (5.144444 : ℝ) ^ 2 from by norm_num]
    rw [Real.sqrt_sq (by norm_num)]
  · norm_num

lemma met_es_pos (x : ℝ) : 0 < met_es x := by
  unfold met_es
  positivity

/-- C10: the qv computed by plot_sounding_data (lines 248-250) collapses to
0.622 * es(Td) / p, the saturation vapor pressure at the dewpoint divided by
the total pressure; it therefore equals the standard mixing ratio
0.622 * es(Td) / (p - es(Td)) times the factor (p - es(Td)) / p, and it
strictly underestimates that standard value. -/
theorem sounding_qv_total_pressure (T Td p : ℝ) (hp : 0 < p)
    (hlt : met_es (Td + T00) < p) :
    (sounding_thqv T Td p).2 = 0.622 * met_es (Td + T00) / p ∧
    (sounding_thqv T Td p).2 =
      0.622 * met_es (Td + T00) / (p - met_es (Td + T00)) *
        ((p - met_es (Td + T00)) / p) ∧
    (sounding_thqv T Td p).2 <
      0.622 * met_es (Td + T00) / (p - met_es (Td + T00)) := by
  have hesT : met_es (T + T00) ≠ 0 := ne_of_gt (met_es_pos _)
  have hesTd : 0 < met_es (Td + T00) := met_es_pos _
  have hdiff : 0 < p - met_es (Td + T00) := by linarith
  have h1 : (sounding_thqv T Td p).2 = 0.622 * met_es (Td + T00) / p := by
    simp only [sounding_thqv]
    field_simp
    ring
  refine ⟨h1, ?_, ?_⟩
  · rw [h1]
    field_simp
  · rw [h1]
    exact div_lt_div_of_pos_left (by positivity) hdiff (by linarith)

/-- Witness for C10 at a surface observation with dewpoint 0 Celsius. -/
theorem sounding_qv_total_pressure_witness :
    (0 : ℝ) < 100000 ∧
    (sounding_thqv 20 0 100000).2 = 0.622 * met_es (0 + T00) / 100000 := by
  have hes : met_es ((0 : ℝ) + T00) = 611.2 := by
    unfold met_es T00
    norm_num [Real.exp_zero]
  refine ⟨by norm_num, (sounding_qv_total_pressure 20 0 100000 (by norm_num) ?_).1⟩
  rw [hes]
  norm_num

/- ## Parcel / CAPE engine (pymeteo.thermo.CAPE, modelled from spec 4.3) -/

/-- The dictionary of scalar parcel results returned by the CAPE engine and
consumed by calc_sounding_stats; undefined levels are explicit sentinels. -/
structure ParcelResult where
  cape : ℝ
  cin : ℝ
  lclprs : Option ℝ
  lfcprs : Option ℝ
  elprs : Option ℝ

/-- Modelled from the spec: the pressure of integration step i, descending
from the origin pressure in fixed steps of dp = 5000 Pa (section 4.3
step 2, part of pymeteo.thermo.CAPE, not under src/). -/
noncomputable def qAt (porig : ℝ) (i : ℕ) : ℝ := porig - 5000 * i

/-- Modelled from the spec: the number of fixed 5000 Pa steps that fit
between the origin pressure and the profile-top pressure (section 4.3,
part of pymeteo.thermo.CAPE, not under src/). -/
noncomputable def capeN (n : ℕ) (p : ℕ → ℝ) (porig : ℝ) : ℕ :=
  Nat.floor ((porig - p (n - 1)) / 5000)

/-- Modelled from the spec: the most-unstable origin search, a linear scan of
the levels within 300 hPa of the surface selecting the maximizer of
equivalent potential temperature, ties broken by the lowest index
(section 4.3 step 1, part of pymeteo.thermo.CAPE, not under src/). -/
noncomputable def muOrigin (n : ℕ) (p T qv : ℕ → ℝ) : ℕ :=
  (List.range n).foldl
    (fun best k =>
      if p 0 - 30000 ≤ p k ∧
          met_thetae (T best) (p best) (qv best) < met_thetae (T k) (p k) (qv k)
        then k else best) 0

/-- Modelled from the spec: the mixed-layer origin, the plain mean of
temperature and mixing ratio over the levels within 500 m of the surface
(section 4.3, part of pymeteo.thermo.CAPE, not under src/). -/
noncomputable def mlOrigin (n : ℕ) (z T qv : ℕ → ℝ) : ℝ × ℝ :=
  ((((List.range n).filter fun k => decide (z k ≤ z 0 + 500)).map T).sum /
     (((List.range n).filter fun k => decide (z k ≤ z 0 + 500)).length),
   (((List.range n).filter fun k => decide (z k ≤ z 0 + 500)).map qv).sum /
     (((List.range n).filter fun k => decide (z k ≤ z 0 + 500)).length))

/-- Modelled from the spec: the origin state (T0, qv0, p0) selected by the
origin-selection mode: 2 picks the most-unstable level, 3 the mixed-layer
average at surface pressure, anything else the surface level (section 3 and
4.3 step 1, part of pymeteo.thermo.CAPE, not under src/). -/
noncomputable def originState (n : ℕ) (z p T qv : ℕ → ℝ) (mode : ℕ) : ℝ × ℝ × ℝ :=
  if mode = 2 then
    (T (muOrigin n p T qv), qv (muOrigin n p T qv), p (muOrigin n p T qv))
  else if mode = 3 then
    ((mlOrigin n z T qv).1, (mlOrigin n z T qv).2, p 0)
  else (T 0, qv 0, p 0)

/-- Modelled from the spec: the lifted parcel temperature path, dry Poisson
ascent while unsaturated and an Euler step on the moist-adiabatic lapse rate
once the saturation mixing ratio falls to the origin mixing ratio
(section 4.3 steps 2-3, part of pymeteo.thermo.CAPE, not under src/). -/
noncomputable def parcelT (T0 qv0 porig : ℝ) : ℕ → ℝ
  | 0 => T0
  | i + 1 =>
    if met_rs (parcelT T0 qv0 porig i) (qAt porig i) ≤ qv0 then
      parcelT T0 qv0 porig i -
        met_dTdp_moist (parcelT T0 qv0 porig i) (qAt porig i) * 5000
    else T0 * (qAt porig (i + 1) / porig) ^ kappaD

/-- Modelled from the spec: the parcel mixing ratio, the origin value below
saturation and the saturation value above it (section 4.3 step 4, part of
pymeteo.thermo.CAPE, not under src/). -/
noncomputable def parcelQv (T0 qv0 porig : ℝ) (i : ℕ) : ℝ :=
  min qv0 (met_rs (parcelT T0 qv0 porig i) (qAt porig i))

/-- Modelled from the spec: the lifted parcel virtual temperature at
integration step i (section 4.3 step 4, part of pymeteo.thermo.CAPE, not
under src/). -/
noncomputable def TvpAt (T0 qv0 porig : ℝ) (i : ℕ) : ℝ :=
  met_Tv (parcelT T0 qv0 porig i) (parcelQv T0 qv0 porig i)

/-- Modelled from the spec: the environment virtual temperature interpolated
from the profile at the pressure of integration step i (section 4.3 step 4,
part of pymeteo.thermo.CAPE, not under src/). -/
noncomputable def TveAt (n : ℕ) (p T qv : ℕ → ℝ) (porig : ℝ) (i : ℕ) : ℝ :=
  interpDec n p (fun k => met_Tv (T k) (qv k)) (qAt porig i)

/-- Modelled from the spec: profile height interpolated at the pressure of
integration step i (part of pymeteo.thermo.CAPE, not under src/). -/
noncomputable def zAtQ (n : ℕ) (z p : ℕ → ℝ) (porig : ℝ) (i : ℕ) : ℝ :=
  interpDec n p z (qAt porig i)

/-- Modelled from the spec: one buoyancy increment
g * (Tv_parcel - Tv_env) / Tv_env * dz of the integration layer starting at
step i (section 4.3 step 5, part of pymeteo.thermo.CAPE, not under src/). -/
noncomputable def buoyTerm (n : ℕ) (z p T qv : ℕ → ℝ) (T0 qv0 porig : ℝ)
    (i : ℕ) : ℝ :=
  grav * (TvpAt T0 qv0 porig i - TveAt n p T qv porig i) /
    TveAt n p T qv porig i *
    (zAtQ n z p porig (i + 1) - zAtQ n z p porig i)

/-- Modelled from the spec: the LCL, the first integration step at which the
parcel saturation mixing ratio has fallen to the origin mixing ratio
(section 4.3 step 2, part of pymeteo.thermo.CAPE, not under src/). -/
noncomputable def lclIdx (T0 qv0 porig : ℝ) (N : ℕ) : Option ℕ :=
  (List.range (N + 1)).find? fun i =>
    decide (met_rs (parcelT T0 qv0 porig i) (qAt porig i) ≤ qv0)

/-- Modelled from the spec: the LFC, the first step at or above the LCL whose
parcel virtual temperature exceeds the environment, a sentinel when no such
step exists (section 4.3 step 5, part of pymeteo.thermo.CAPE, not under src/). -/
noncomputable def lfcIdx (n : ℕ) (p T qv : ℕ → ℝ) (T0 qv0 porig : ℝ)
    (N : ℕ) : Option ℕ :=
  (lclIdx T0 qv0 porig N).bind fun l =>
    (List.range (N + 1)).find? fun i =>
      decide (l ≤ i ∧ TveAt n p T qv porig i < TvpAt T0 qv0 porig i)

/-- Modelled from the spec: the EL, the first step above the LFC where the
parcel buoyancy returns to zero, the profile top when there is none
(section 4.3 step 5, part of pymeteo.thermo.CAPE, not under src/). -/
noncomputable def elIdx (n : ℕ) (p T qv : ℕ → ℝ) (T0 qv0 porig : ℝ)
    (N f : ℕ) : ℕ :=
  ((List.range (N + 1)).find? fun i =>
    decide (f < i ∧ TvpAt T0 qv0 porig i ≤ TveAt n p T qv porig i)).getD N

/-- Modelled from the spec: the buoyancy-integration core of the CAPE engine
for a fixed origin state: CAPE accumulates the positive increments between
the LFC and the EL, CIN the negative increments between the origin and the
LFC; with no LFC both are zero and LFC/EL are undefined sentinels
(section 4.3 steps 5-6 and section 7, part of pymeteo.thermo.CAPE, not
under src/). -/
noncomputable def capeFromOrigin (n : ℕ) (z p T qv : ℕ → ℝ)
    (T0 qv0 porig : ℝ) : ParcelResult :=
  match lfcIdx n p T qv T0 qv0 porig (capeN n p porig) with
  | none =>
    { cape := 0
      cin := 0
      lclprs := (lclIdx T0 qv0 porig (capeN n p porig)).map (qAt porig)
      lfcprs := none
      elprs := none }
  | some f =>
    { cape := Finset.sum
        (Finset.Ico f (elIdx n p T qv T0 qv0 porig (capeN n p porig) f)) fun i =>
          if TveAt n p T qv porig i < TvpAt T0 qv0 porig i
            then buoyTerm n z p T qv T0 qv0 porig i else 0
      cin := Finset.sum (Finset.range f) fun i =>
          if TvpAt T0 qv0 porig i < TveAt n p T qv porig i
            then buoyTerm n z p T qv T0 qv0 porig i else 0
      lclprs := (lclIdx T0 qv0 porig (capeN n p porig)).map (qAt porig)
      lfcprs := some (qAt porig f)
      elprs := some (qAt porig (elIdx n p T qv T0 qv0 porig (capeN n p porig) f)) }

/-- Modelled from the spec: the parcel/CAPE engine met.CAPE(z, p, T, qv,
mode): origin selection per the mode, then the lifted-parcel integration and
buoyancy accumulation (section 4.3, pymeteo.thermo.CAPE, not under src/). -/
noncomputable def met_CAPE (n : ℕ) (z p T qv : ℕ → ℝ) (mode : ℕ) : ParcelResult :=
  capeFromOrigin n z p T qv (originState n z p T qv mode).1
    (originState n z p T qv mode).2.1 (originState n z p T qv mode).2.2

/-- The analysis facade calc_sounding_stats (skewt.py lines 486-492):
convert theta to absolute temperature with met.T and run the CAPE engine in
the three origin-selection modes. -/
noncomputable def calc_sounding_stats (n : ℕ) (z th p qv : ℕ → ℝ) :
    ParcelResult × ParcelResult × ParcelResult :=
  (met_CAPE n z p (fun k => met_T (th k) (p k)) qv 1,
   met_CAPE n z p (fun k => met_T (th k) (p k)) qv 2,
   met_CAPE n z p (fun k => met_T (th k) (p k)) qv 3)

/-- C4: calc_sounding_stats converts theta to absolute temperature through
the Poisson relation with reference pressure 100000 Pa and exponent 0.2854,
runs the CAPE engine exactly three times on that same profile, once per
origin-selection mode 1, 2 and 3, and returns the triple of parcel bundles
with no other computation. -/
theorem calc_sounding_stats_orchestration (n : ℕ) (z th p qv : ℕ → ℝ) :
    calc_sounding_stats n z th p qv =
      (met_CAPE n z p (fun k => th k * (p k / 100000) ^ (0.2854 : ℝ)) qv 1,
       met_CAPE n z p (fun k => th k * (p k / 100000) ^ (0.2854 : ℝ)) qv 2,
       met_CAPE n z p (fun k => th k * (p k / 100000) ^ (0.2854 : ℝ)) qv 3) := rfl

/- ## Lemmas about the bracketing scan and the interpolation -/

lemma bracketAux_ge (stop : ℕ → Prop) [DecidablePred stop] (i f : ℕ) :
    i ≤ bracketAux stop i f := by
  induction f generalizing i with
  | zero => simp [bracketAux]
  | succ f ih =>
    simp only [bracketAux]
    split_ifs
    · exact le_rfl
    · exact le_trans (Nat.le_succ i) (ih (i + 1))

lemma bracketAux_le (stop : ℕ → Prop) [DecidablePred stop] (i f : ℕ) :
    bracketAux stop i f ≤ i + f := by
  induction f generalizing i with
  | zero => simp [bracketAux]
  | succ f ih =>
    simp only [bracketAux]
    split_ifs
    · omega
    · have := ih (i + 1)
      omega

lemma bracketAux_not_stop (stop : ℕ → Prop) [DecidablePred stop] (i f : ℕ) :
    ∀ j, i ≤ j → j < bracketAux stop i f → ¬ stop j := by
  induction f generalizing i with
  | zero =>
    intro j hij hjlt
    simp only [bracketAux] at hjlt
    omega
  | succ f ih =>
    intro j hij hjlt
    simp only [bracketAux] at hjlt
    by_cases hs : stop i
    · rw [if_pos hs] at hjlt
      omega
    · rw [if_neg hs] at hjlt
      rcases eq_or_lt_of_le hij with he | hlt
      · subst he
        exact hs
      · exact ih (i + 1) j hlt hjlt

lemma bracketAux_stop_or (stop : ℕ → Prop) [DecidablePred stop] (i f : ℕ) :
    stop (bracketAux stop i f) ∨ bracketAux stop i f = i + f := by
  induction f generalizing i with
  | zero =>
    right
    simp [bracketAux]
  | succ f ih =>
    simp only [bracketAux]
    split_ifs with hs
    · exact Or.inl hs
    · rcases ih (i + 1) with h | h
      · exact Or.inl h
      · right
        omega

lemma bracketAux_mono (stop1 stop2 : ℕ → Prop) [DecidablePred stop1]
    [DecidablePred stop2] (h : ∀ j, stop2 j → stop1 j) (i f : ℕ) :
    bracketAux stop1 i f ≤ bracketAux stop2 i f := by
  induction f generalizing i with
  | zero => simp [bracketAux]
  | succ f ih =>
    simp only [bracketAux]
    by_cases h1 : stop1 i
    · rw [if_pos h1]
      split_ifs
      · exact le_rfl
      · exact le_trans (Nat.le_succ i) (bracketAux_ge stop2 (i + 1) f)
    · rw [if_neg h1, if_neg fun h2 => h1 (h i h2)]
      exact ih (i + 1)

/-- The bracketing index used by interpDec. -/
noncomputable def iDec (n : ℕ) (p : ℕ → ℝ) (q : ℝ) : ℕ :=
  bracketAux (fun j => p (j + 1) ≤ q) 0 (n - 2)

lemma interpDec_eq (n : ℕ) (p ys : ℕ → ℝ) (q : ℝ) :
    interpDec n p ys q =
      ys (iDec n p q) + (ys (iDec n p q + 1) - ys (iDec n p q)) *
        (q - p (iDec n p q)) / (p (iDec n p q + 1) - p (iDec n p q)) := rfl

lemma iDec_le (n : ℕ) (p : ℕ → ℝ) (q : ℝ) : iDec n p q ≤ n - 2 := by
  simpa using bracketAux_le (fun j => p (j + 1) ≤ q) 0 (n - 2)

lemma iDec_succ_lt (n : ℕ) (p : ℕ → ℝ) (q : ℝ) (hn : 2 ≤ n) :
    iDec n p q + 1 < n := by
  have := iDec_le n p q
  omega

lemma q_le_p_iDec (n : ℕ) (p : ℕ → ℝ) (q : ℝ) (hq : q ≤ p 0) :
    q ≤ p (iDec n p q) := by
  cases h : iDec n p q with
  | zero => exact hq
  | succ j =>
    have hns := bracketAux_not_stop (fun j => p (j + 1) ≤ q) 0 (n - 2) j
      (Nat.zero_le j) (by rw [show bracketAux (fun j => p (j + 1) ≤ q) 0 (n - 2) = iDec n p q from rfl, h]; omega)
    exact le_of_not_le hns

lemma p_iDec_succ_le (n : ℕ) (p : ℕ → ℝ) (q : ℝ) (hn : 2 ≤ n)
    (hq : p (n - 1) ≤ q) : p (iDec n p q + 1) ≤ q := by
  rcases bracketAux_stop_or (fun j => p (j + 1) ≤ q) 0 (n - 2) with h | h
  · exact h
  · have h2 : iDec n p q = n - 2 := by simpa using h
    rw [h2, show n - 2 + 1 = n - 1 from by omega]
    exact hq

lemma lin_bound (a b t : ℝ) (h0 : 0 ≤ t) (h1 : t ≤ 1) :
    min a b ≤ a + (b - a) * t ∧ a + (b - a) * t ≤ max a b := by
  rcases le_total a b with h | h
  · rw [min_eq_left h, max_eq_right h]
    constructor <;> nlinarith
  · rw [min_eq_right h, max_eq_left h]
    constructor <;> nlinarith

lemma interpDec_t_bounds (n : ℕ) (p : ℕ → ℝ) (q : ℝ) (hn : 2 ≤ n)
    (hp : ∀ j k, j < k → k < n → p k < p j)
    (hq1 : p (n - 1) ≤ q) (hq2 : q ≤ p 0) :
    0 ≤ (q - p (iDec n p q)) / (p (iDec n p q + 1) - p (iDec n p q)) ∧
    (q - p (iDec n p q)) / (p (iDec n p q + 1) - p (iDec n p q)) ≤ 1 := by
  have hden : p (iDec n p q + 1) - p (iDec n p q) < 0 := by
    have := hp (iDec n p q) (iDec n p q + 1) (Nat.lt_succ_self _)
      (iDec_succ_lt n p q hn)
    linarith
  have hnum : q - p (iDec n p q) ≤ 0 := by
    have := q_le_p_iDec n p q hq2
    linarith
  constructor
  · exact div_nonneg_iff.mpr (Or.inr ⟨hnum, hden.le⟩)
  · have h2 : p (iDec n p q + 1) - p (iDec n p q) ≤ q - p (iDec n p q) := by
      have := p_iDec_succ_le n p q hn hq1
      linarith
    rw [div_eq_mul_inv]
    calc (q - p (iDec n p q)) * (p (iDec n p q + 1) - p (iDec n p q))⁻¹
        ≤ (p (iDec n p q + 1) - p (iDec n p q)) *
            (p (iDec n p q + 1) - p (iDec n p q))⁻¹ :=
          mul_le_mul_of_nonpos_right h2 (inv_nonpos.mpr hden.le)
      _ = 1 := mul_inv_cancel₀ (ne_of_lt hden)

lemma interpDec_mem (n : ℕ) (p ys : ℕ → ℝ) (q : ℝ) (hn : 2 ≤ n)
    (hp : ∀ j k, j < k → k < n → p k < p j)
    (hq1 : p (n - 1) ≤ q) (hq2 : q ≤ p 0) :
    min (ys (iDec n p q)) (ys (iDec n p q + 1)) ≤ interpDec n p ys q ∧
    interpDec n p ys q ≤ max (ys (iDec n p q)) (ys (iDec n p q + 1)) := by
  have ht := interpDec_t_bounds n p q hn hp hq1 hq2
  have hb := lin_bound (ys (iDec n p q)) (ys (iDec n p q + 1))
    ((q - p (iDec n p q)) / (p (iDec n p q + 1) - p (iDec n p q))) ht.1 ht.2
  rw [interpDec_eq, mul_div_assoc]
  exact hb

lemma interpDec_pos (n : ℕ) (p ys : ℕ → ℝ) (q : ℝ) (hn : 2 ≤ n)
    (hp : ∀ j k, j < k → k < n → p k < p j)
    (hys : ∀ k, k < n → 0 < ys k)
    (hq1 : p (n - 1) ≤ q) (hq2 : q ≤ p 0) : 0 < interpDec n p ys q := by
  have h1 := (interpDec_mem n p ys q hn hp hq1 hq2).1
  have h2 : 0 < min (ys (iDec n p q)) (ys (iDec n p q + 1)) :=
    lt_min (hys _ (by have := iDec_succ_lt n p q hn; omega))
      (hys _ (iDec_succ_lt n p q hn))
  linarith

lemma interpDec_anti (n : ℕ) (p ys : ℕ → ℝ) (q q2 : ℝ) (hn : 2 ≤ n)
    (hp : ∀ j k, j < k → k < n → p k < p j)
    (hys : ∀ j k, j < k → k < n → ys j < ys k)
    (hq1 : p (n - 1) ≤ q2) (hq12 : q2 ≤ q) (hq2 : q ≤ p 0) :
    interpDec n p ys q ≤ interpDec n p ys q2 := by
  have hi : iDec n p q ≤ iDec n p q2 :=
    bracketAux_mono _ _ (fun j hj => le_trans hj hq12) 0 (n - 2)
  rcases eq_or_lt_of_le hi with he | hlt
  · have hden : p (iDec n p q + 1) - p (iDec n p q) < 0 := by
      have := hp (iDec n p q) (iDec n p q + 1) (Nat.lt_succ_self _)
        (iDec_succ_lt n p q hn)
      linarith
    have hB : 0 < ys (iDec n p q + 1) - ys (iDec n p q) := by
      have := hys (iDec n p q) (iDec n p q + 1) (Nat.lt_succ_self _)
        (iDec_succ_lt n p q hn)
      linarith
    rw [interpDec_eq, interpDec_eq, ← he]
    have h1 : (ys (iDec n p q + 1) - ys (iDec n p q)) * (q2 - p (iDec n p q)) ≤
        (ys (iDec n p q + 1) - ys (iDec n p q)) * (q - p (iDec n p q)) := by
      nlinarith
    have h2 := mul_le_mul_of_nonpos_right h1
      (inv_nonpos.mpr hden.le)
    rw [div_eq_mul_inv, div_eq_mul_inv]
    linarith
  · have hq1q : p (n - 1) ≤ q := le_trans hq1 hq12
    have hq2q2 : q2 ≤ p 0 := le_trans hq12 hq2
    have h1 := (interpDec_mem n p ys q hn hp hq1q hq2).2
    have h2 := (interpDec_mem n p ys q2 hn hp hq1 hq2q2).1
    have hy1 : ys (iDec n p q) < ys (iDec n p q + 1) :=
      hys _ _ (Nat.lt_succ_self _) (iDec_succ_lt n p q hn)
    have hy2 : ys (iDec n p q2) < ys (iDec n p q2 + 1) :=
      hys _ _ (Nat.lt_succ_self _) (iDec_succ_lt n p q2 hn)
    have hmid : ys (iDec n p q + 1) ≤ ys (iDec n p q2) := by
      rcases eq_or_lt_of_le (Nat.succ_le_of_lt hlt) with he2 | hlt2
      · rw [show iDec n p q + 1 = iDec n p q2 from by omega]
      · exact (hys _ _ hlt2 (by have := iDec_le n p q2; omega)).le
    calc interpDec n p ys q
        ≤ max (ys (iDec n p q)) (ys (iDec n p q + 1)) := h1
      _ = ys (iDec n p q + 1) := max_eq_right hy1.le
      _ ≤ ys (iDec n p q2) := hmid
      _ = min (ys (iDec n p q2)) (ys (iDec n p q2 + 1)) := (min_eq_left hy2.le).symm
      _ ≤ interpDec n p ys q2 := h2

/- ## Sign lemmas for the CAPE engine -/

lemma muOrigin_lt (n : ℕ) (p T qv : ℕ → ℝ) (hn : 0 < n) :
    muOrigin n p T qv < n := by
  unfold muOrigin
  have H : ∀ l (b : ℕ), b < n → (∀ k ∈ l, k < n) →
      List.foldl
        (fun best k =>
          if p 0 - 30000 ≤ p k ∧
              met_thetae (T best) (p best) (qv best) <
                met_thetae (T k) (p k) (qv k)
            then k else best) b l < n := by
    intro l
    induction l with
    | nil =>
      intro b hb _
      simpa using hb
    | cons a l ih =>
      intro b hb hmem
      simp only [List.foldl_cons]
      apply ih
      · split_ifs
        · exact hmem a (List.mem_cons_self a l)
        · exact hb
      · exact fun k hk => hmem k (List.mem_cons_of_mem a hk)
  exact H (List.range n) 0 hn fun k hk => List.mem_range.mp hk

lemma originState_porig (n : ℕ) (z p T qv : ℕ → ℝ) (mode : ℕ) (hn : 2 ≤ n)
    (hp : ∀ j k, j < k → k < n → p k < p j) :
    p (n - 1) ≤ (originState n z p T qv mode).2.2 ∧
    (originState n z p T qv mode).2.2 ≤ p 0 := by
  have hmono : ∀ k, k < n → p (n - 1) ≤ p k ∧ p k ≤ p 0 := by
    intro k hk
    constructor
    · rcases eq_or_lt_of_le (show k ≤ n - 1 from by omega) with he | hlt
      · rw [he]
      · exact (hp k (n - 1) hlt (by omega)).le
    · rcases Nat.eq_zero_or_pos k with he | hpos
      · rw [he]
      · exact (hp 0 k hpos hk).le
  unfold originState
  split_ifs
  · exact hmono (muOrigin n p T qv) (muOrigin_lt n p T qv (by omega))
  · exact hmono 0 (by omega)
  · exact hmono 0 (by omega)

lemma qAt_range (n : ℕ) (p : ℕ → ℝ) (porig : ℝ) (i : ℕ)
    (hlo : p (n - 1) ≤ porig) (hi : i ≤ capeN n p porig) :
    p (n - 1) ≤ qAt porig i ∧ qAt porig i ≤ porig := by
  constructor
  · have hNle : (capeN n p porig : ℝ) ≤ (porig - p (n - 1)) / 5000 :=
      Nat.floor_le (div_nonneg (by linarith) (by norm_num))
    have hic : (i : ℝ) ≤ (capeN n p porig : ℝ) := Nat.cast_le.mpr hi
    unfold qAt
    nlinarith
  · have h0 : (0 : ℝ) ≤ (i : ℝ) := Nat.cast_nonneg i
    unfold qAt
    nlinarith

lemma TveAt_pos (n : ℕ) (p T qv : ℕ → ℝ) (porig : ℝ) (i : ℕ) (hn : 2 ≤ n)
    (hp : ∀ j k, j < k → k < n → p k < p j)
    (hTv : ∀ k, k < n → 0 < met_Tv (T k) (qv k))
    (hlo : p (n - 1) ≤ porig) (hhi : porig ≤ p 0)
    (hi : i ≤ capeN n p porig) : 0 < TveAt n p T qv porig i := by
  have hr := qAt_range n p porig i hlo hi
  exact interpDec_pos n p _ (qAt porig i) hn hp hTv hr.1 (le_trans hr.2 hhi)

lemma dz_nonneg (n : ℕ) (z p : ℕ → ℝ) (porig : ℝ) (i : ℕ) (hn : 2 ≤ n)
    (hp : ∀ j k, j < k → k < n → p k < p j)
    (hz : ∀ j k, j < k → k < n → z j < z k)
    (hlo : p (n - 1) ≤ porig) (hhi : porig ≤ p 0)
    (hi1 : i + 1 ≤ capeN n p porig) :
    0 ≤ zAtQ n z p porig (i + 1) - zAtQ n z p porig i := by
  have hr1 := qAt_range n p porig (i + 1) hlo hi1
  have hr0 := qAt_range n p porig i hlo (by omega)
  have hstep : qAt porig (i + 1) ≤ qAt porig i := by
    unfold qAt
    push_cast
    nlinarith
  have h := interpDec_anti n p z (qAt porig i) (qAt porig (i + 1)) hn hp hz
    hr1.1 hstep (le_trans hr0.2 hhi)
  unfold zAtQ
  linarith

lemma lfcIdx_le (n : ℕ) (p T qv : ℕ → ℝ) (T0 qv0 porig : ℝ) (N f : ℕ)
    (h : lfcIdx n p T qv T0 qv0 porig N = some f) : f ≤ N := by
  unfold lfcIdx at h
  obtain ⟨l, hl, hf⟩ := Option.bind_eq_some.mp h
  have := List.mem_range.mp (List.mem_of_find?_eq_some hf)
  omega

lemma elIdx_le (n : ℕ) (p T qv : ℕ → ℝ) (T0 qv0 porig : ℝ) (N f : ℕ) :
    elIdx n p T qv T0 qv0 porig N f ≤ N := by
  unfold elIdx
  cases h : (List.range (N + 1)).find? fun i =>
      decide (f < i ∧ TvpAt T0 qv0 porig i ≤ TveAt n p T qv porig i) with
  | none => simp
  | some e =>
    have := List.mem_range.mp (List.mem_of_find?_eq_some h)
    simp only [Option.getD_some]
    omega

lemma capeFromOrigin_sign (n : ℕ) (z p T qv : ℕ → ℝ) (T0 qv0 porig : ℝ)
    (hn : 2 ≤ n) (hp : ∀ j k, j < k → k < n → p k < p j)
    (hz : ∀ j k, j < k → k < n → z j < z k)
    (hTv : ∀ k, k < n → 0 < met_Tv (T k) (qv k))
    (hlo : p (n - 1) ≤ porig) (hhi : porig ≤ p 0) :
    0 ≤ (capeFromOrigin n z p T qv T0 qv0 porig).cape ∧
    (capeFromOrigin n z p T qv T0 qv0 porig).cin ≤ 0 := by
  unfold capeFromOrigin
  cases hf : lfcIdx n p T qv T0 qv0 porig (capeN n p porig) with
  | none => simp
  | some f =>
    simp only
    have hfN : f ≤ capeN n p porig :=
      lfcIdx_le n p T qv T0 qv0 porig (capeN n p porig) f hf
    have helN : elIdx n p T qv T0 qv0 porig (capeN n p porig) f ≤ capeN n p porig :=
      elIdx_le n p T qv T0 qv0 porig (capeN n p porig) f
    constructor
    · apply Finset.sum_nonneg
      intro i hi
      have hi2 := Finset.mem_Ico.mp hi
      by_cases hb : TveAt n p T qv porig i < TvpAt T0 qv0 porig i
      · rw [if_pos hb]
        have hiN : i ≤ capeN n p porig := by omega
        have hi1N : i + 1 ≤ capeN n p porig := by omega
        have hTve := TveAt_pos n p T qv porig i hn hp hTv hlo hhi hiN
        have hdz := dz_nonneg n z p porig i hn hp hz hlo hhi hi1N
        unfold buoyTerm
        have h1 : 0 ≤ grav * (TvpAt T0 qv0 porig i - TveAt n p T qv porig i) /
            TveAt n p T qv porig i :=
          div_nonneg (mul_nonneg (by norm_num [grav]) (by linarith)) hTve.le
        exact mul_nonneg h1 hdz
      · rw [if_neg hb]
    · apply Finset.sum_nonpos
      intro i hi
      have hi2 := Finset.mem_range.mp hi
      by_cases hb : TvpAt T0 qv0 porig i < TveAt n p T qv porig i
      · rw [if_pos hb]
        have hiN : i ≤ capeN n p porig := by omega
        have hi1N : i + 1 ≤ capeN n p porig := by omega
        have hTve := TveAt_pos n p T qv porig i hn hp hTv hlo hhi hiN
        have hdz := dz_nonneg n z p porig i hn hp hz hlo hhi hi1N
        unfold buoyTerm
        have h1 : grav * (TvpAt T0 qv0 porig i - TveAt n p T qv porig i) ≤ 0 :=
          mul_nonpos_iff.mpr (Or.inl ⟨by norm_num [grav], by linarith⟩)
        have h2 : grav * (TvpAt T0 qv0 porig i - TveAt n p T qv porig i) /
            TveAt n p T qv porig i ≤ 0 :=
          div_nonpos_iff.mpr (Or.inr ⟨h1, hTve.le⟩)
        exact mul_nonpos_iff.mpr (Or.inr ⟨h2, hdz⟩)
      · rw [if_neg hb]

lemma met_CAPE_sign (n : ℕ) (z p T qv : ℕ → ℝ) (mode : ℕ) (hn : 2 ≤ n)
    (hp : ∀ j k, j < k → k < n → p k < p j)
    (hz : ∀ j k, j < k → k < n → z j < z k)
    (hTv : ∀ k, k < n → 0 < met_Tv (T k) (qv k)) :
    0 ≤ (met_CAPE n z p T qv mode).cape ∧ (met_CAPE n z p T qv mode).cin ≤ 0 := by
  unfold met_CAPE
  have h := originState_porig n z p T qv mode hn hp
  exact capeFromOrigin_sign n z p T qv _ _ _ hn hp hz hTv h.1 h.2

/-- C6: for every valid profile (at least two levels, strictly increasing
heights, strictly decreasing positive pressures, positive potential
temperatures, nonnegative mixing ratios), each of the three parcel bundles
returned by calc_sounding_stats satisfies CAPE at least 0 and CIN at
most 0. -/
theorem cape_nonneg_cin_nonpos (n : ℕ) (z th p qv : ℕ → ℝ) (hn : 2 ≤ n)
    (hz : ∀ j k, j < k → k < n → z j < z k)
    (hp : ∀ j k, j < k → k < n → p k < p j)
    (hppos : ∀ k, k < n → 0 < p k)
    (hth : ∀ k, k < n → 0 < th k)
    (hqv : ∀ k, k < n → 0 ≤ qv k) :
    0 ≤ (calc_sounding_stats n z th p qv).1.cape ∧
    (calc_sounding_stats n z th p qv).1.cin ≤ 0 ∧
    0 ≤ (calc_sounding_stats n z th p qv).2.1.cape ∧
    (calc_sounding_stats n z th p qv).2.1.cin ≤ 0 ∧
    0 ≤ (calc_sounding_stats n z th p qv).2.2.cape ∧
    (calc_sounding_stats n z th p qv).2.2.cin ≤ 0 := by
  have hTv : ∀ k, k < n →
      0 < met_Tv ((fun k => met_T (th k) (p k)) k) (qv k) := by
    intro k hk
    unfold met_Tv met_T
    have h1 : 0 < th k * (p k / p00) ^ kappaD :=
      mul_pos (hth k hk)
        (Real.rpow_pos_of_pos (div_pos (hppos k hk) (by norm_num [p00])) _)
    have h2 : 0 < 1 + 0.61 * qv k := by nlinarith [hqv k hk]
    exact mul_pos h1 h2
  have h1 := met_CAPE_sign n z p (fun k => met_T (th k) (p k)) qv 1 hn hp hz hTv
  have h2 := met_CAPE_sign n z p (fun k => met_T (th k) (p k)) qv 2 hn hp hz hTv
  have h3 := met_CAPE_sign n z p (fun k => met_T (th k) (p k)) qv 3 hn hp hz hTv
  exact ⟨h1.1, h1.2, h2.1, h2.2, h3.1, h3.2⟩

/-- Witness for C6 at a concrete two-level profile. -/
theorem cape_nonneg_cin_nonpos_witness :
    (2 : ℕ) ≤ 2 ∧
    (0 ≤ (calc_sounding_stats 2 (fun k => 1000 * (k : ℝ))
        (fun _ => (300 : ℝ)) (fun k => 100000 - 10000 * (k : ℝ))
        (fun _ => (0.01 : ℝ))).1.cape ∧
      (calc_sounding_stats 2 (fun k => 1000 * (k : ℝ)) (fun _ => (300 : ℝ))
        (fun k => 100000 - 10000 * (k : ℝ)) (fun _ => (0.01 : ℝ))).1.cin ≤ 0) := by
  have h := cape_nonneg_cin_nonpos 2 (fun k => 1000 * (k : ℝ))
    (fun _ => (300 : ℝ)) (fun k => 100000 - 10000 * (k : ℝ))
    (fun _ => (0.01 : ℝ)) le_rfl
    (by
      intro j k hjk _
      have hc : (j : ℝ) < (k : ℝ) := Nat.cast_lt.mpr hjk
      show (1000 : ℝ) * j < 1000 * k
      nlinarith)
    (by
      intro j k hjk _
      have hc : (j : ℝ) < (k : ℝ) := Nat.cast_lt.mpr hjk
      show (100000 : ℝ) - 10000 * k < 100000 - 10000 * j
      nlinarith)
    (by
      intro k hk
      interval_cases k <;> norm_num)
    (by
      intro k _
      norm_num)
    (by
      intro k _
      norm_num)
  exact ⟨le_rfl, h.1, h.2.1⟩

/- ## Wind / shear engine (pymeteo.dynamics, modelled from spec 4.4) -/

/-- Modelled from the spec: the two-argument arctangent, defined by the usual
case split, used to express wind direction (support for
pymeteo.dynamics.uv_to_deg, not under src/). -/
noncomputable def met_atan2 (y x : ℝ) : ℝ :=
  if 0 < x then Real.arctan (y / x)
  else if x < 0 then
    (if 0 ≤ y then Real.arctan (y / x) + Real.pi
     else Real.arctan (y / x) - Real.pi)
  else if 0 < y then Real.pi / 2
  else if y < 0 then -(Real.pi / 2)
  else 0

/-- Modelled from the spec: conversion of a wind vector (u, v) to the
meteorological pair (direction in degrees in [0, 360), magnitude), the
inverse convention of wind_deg_to_uv (pymeteo.dynamics.uv_to_deg, not under
src/; skewt.py formats its first component as degrees and its second as a
speed in m/s). -/
noncomputable def uv_to_deg (u v : ℝ) : ℝ × ℝ :=
  (if met_atan2 (-u) (-v) * 180 / Real.pi < 0
     then met_atan2 (-u) (-v) * 180 / Real.pi + 360
     else met_atan2 (-u) (-v) * 180 / Real.pi,
   Real.sqrt (u ^ 2 + v ^ 2))

/-- Modelled from the spec: bulk shear over a height layer, the vector
difference of the wind interpolated at the layer top and bottom
(section 4.4, pymeteo.dynamics.shear, not under src/). -/
noncomputable def dyn_shear (n : ℕ) (u v z : ℕ → ℝ) (zbot ztop : ℝ) : ℝ × ℝ :=
  (interpInc n z u ztop - interpInc n z u zbot,
   interpInc n z v ztop - interpInc n z v zbot)

/-- Modelled from the spec: storm-relative helicity over a height layer,
summed level-to-level as cross products of the storm-relative wind between
consecutive levels inside the layer (section 4.4, pymeteo.dynamics.srh, not
under src/). -/
noncomputable def dyn_srh (n : ℕ) (u v z : ℕ → ℝ) (zbot ztop cx cy : ℝ) : ℝ :=
  Finset.sum (Finset.range (n - 1)) fun k =>
    if zbot ≤ z k ∧ z (k + 1) ≤ ztop then
      (u k - cx) * (v (k + 1) - cy) - (u (k + 1) - cx) * (v k - cy)
    else 0

/-- Modelled from the spec: the density-unweighted mean of one wind
component over the levels at or below 6 km (section 4.4, part of
pymeteo.dynamics.storm_motion_bunkers, not under src/). -/
noncomputable def meanWind6 (n : ℕ) (w z : ℕ → ℝ) : ℝ :=
  (((List.range n).filter fun k => decide (z k ≤ 6000)).map w).sum /
    (((List.range n).filter fun k => decide (z k ≤ 6000)).length)

/-- Modelled from the spec: the magnitude of the 0-6 km shear vector
(section 4.4, part of pymeteo.dynamics.storm_motion_bunkers, not under src/). -/
noncomputable def shearMag6 (n : ℕ) (u v z : ℕ → ℝ) : ℝ :=
  Real.sqrt ((dyn_shear n u v z 0 6000).1 ^ 2 + (dyn_shear n u v z 0 6000).2 ^ 2)

/-- Modelled from the spec: the Bunkers (2000) storm-motion estimate, the
0-6 km mean wind plus/minus the 0-6 km shear vector rotated 90 degrees and
scaled to the empirical 7.5 m/s, returned as (rightU, rightV, leftU, leftV)
(section 4.4, pymeteo.dynamics.storm_motion_bunkers, not under src/). -/
noncomputable def storm_motion_bunkers (n : ℕ) (u v z : ℕ → ℝ) :
    ℝ × ℝ × ℝ × ℝ :=
  (meanWind6 n u z + 7.5 * (dyn_shear n u v z 0 6000).2 / shearMag6 n u v z,
   meanWind6 n v z - 7.5 * (dyn_shear n u v z 0 6000).1 / shearMag6 n u v z,
   meanWind6 n u z - 7.5 * (dyn_shear n u v z 0 6000).2 / shearMag6 n u v z,
   meanWind6 n v z + 7.5 * (dyn_shear n u v z 0 6000).1 / shearMag6 n u v z)

/-- The statistics bundle built by calc_hodograph_stats (the dictionary of
skewt.py lines 513-526), with one named field per dictionary key. -/
structure WindStats where
  bunkers : ℝ × ℝ × ℝ × ℝ
  srh01 : ℝ
  srh03 : ℝ
  erh01 : ℝ
  erh03 : ℝ
  s01 : ℝ × ℝ
  s03 : ℝ × ℝ
  s06 : ℝ × ℝ
  s12 : ℝ × ℝ
  s23 : ℝ × ℝ
  s34 : ℝ × ℝ
  s45 : ℝ × ℝ
  s56 : ℝ × ℝ

/-- The analysis facade calc_hodograph_stats (skewt.py lines 494-528):
Bunkers movers, storm-relative helicity over 0-1 and 0-3 km with the right
mover as storm motion, ground-relative helicity with storm motion (0, 0),
and uv_to_deg applied to the bulk shear vectors of the eight fixed layers. -/
noncomputable def calc_hodograph_stats (n : ℕ) (z u v : ℕ → ℝ) : WindStats :=
  { bunkers := storm_motion_bunkers n u v z
    srh01 := dyn_srh n u v z 0 1000 (storm_motion_bunkers n u v z).1
      (storm_motion_bunkers n u v z).2.1
    srh03 := dyn_srh n u v z 0 3000 (storm_motion_bunkers n u v z).1
      (storm_motion_bunkers n u v z).2.1
    erh01 := dyn_srh n u v z 0 1000 0 0
    erh03 := dyn_srh n u v z 0 3000 0 0
    s01 := uv_to_deg (dyn_shear n u v z 0 1000).1 (dyn_shear n u v z 0 1000).2
    s03 := uv_to_deg (dyn_shear n u v z 0 3000).1 (dyn_shear n u v z 0 3000).2
    s06 := uv_to_deg (dyn_shear n u v z 0 6000).1 (dyn_shear n u v z 0 6000).2
    s12 := uv_to_deg (dyn_shear n u v z 1000 2000).1 (dyn_shear n u v z 1000 2000).2
    s23 := uv_to_deg (dyn_shear n u v z 2000 3000).1 (dyn_shear n u v z 2000 3000).2
    s34 := uv_to_deg (dyn_shear n u v z 3000 4000).1 (dyn_shear n u v z 3000 4000).2
    s45 := uv_to_deg (dyn_shear n u v z 4000 5000).1 (dyn_shear n u v z 4000 5000).2
    s56 := uv_to_deg (dyn_shear n u v z 5000 6000).1 (dyn_shear n u v z 5000 6000).2 }

/-- Counterexample for C5: on a two-level profile with a pure northward
0-6 km shear, the s01 entry of the bundle is (180, 1) -- the uv_to_deg polar
form -- and differs from the 0-1 km bulk shear vector (0, 1), so the shear
entries are not stored as vectors. -/
theorem hodograph_shear_stored_polar_counterexample :
    (calc_hodograph_stats 2 (fun k => 6000 * (k : ℝ)) (fun _ => (0 : ℝ))
        (fun k => 6 * (k : ℝ))).s01 ≠
      dyn_shear 2 (fun _ => (0 : ℝ)) (fun k => 6 * (k : ℝ))
        (fun k => 6000 * (k : ℝ)) 0 1000 := by
  have hintu : ∀ q : ℝ,
      interpInc 2 (fun k => 6000 * (k : ℝ)) (fun _ => (0 : ℝ)) q = 0 := by
    intro q
    simp [interpInc, bracketAux]
  have hintv : ∀ q : ℝ,
      interpInc 2 (fun k => 6000 * (k : ℝ)) (fun k => 6 * (k : ℝ)) q =
        q / 1000 := by
    intro q
    simp [interpInc, bracketAux]
    ring
  have hshear : dyn_shear 2 (fun _ => (0 : ℝ)) (fun k => 6 * (k : ℝ))
      (fun k => 6000 * (k : ℝ)) 0 1000 = (0, 1) := by
    unfold dyn_shear
    rw [hintu, hintu, hintv, hintv]
    norm_num
  have hdir : met_atan2 (-(0 : ℝ)) (-(1 : ℝ)) = Real.pi := by
    unfold met_atan2
    rw [if_neg (by norm_num), if_pos (by norm_num), if_pos (by norm_num)]
    norm_num [Real.arctan_zero]
  have huv : uv_to_deg (0 : ℝ) 1 = (180, 1) := by
    unfold uv_to_deg
    rw [hdir]
    have hd : Real.pi * 180 / Real.pi = 180 := by
      rw [mul_comm, mul_div_assoc, div_self Real.pi_ne_zero, mul_one]
    rw [hd, if_neg (by norm_num)]
    norm_num
  show uv_to_deg
      (dyn_shear 2 (fun _ => (0 : ℝ)) (fun k => 6 * (k : ℝ))
        (fun k => 6000 * (k : ℝ)) 0 1000).1
      (dyn_shear 2 (fun _ => (0 : ℝ)) (fun k => 6 * (k : ℝ))
        (fun k => 6000 * (k : ℝ)) 0 1000).2 ≠
    dyn_shear 2 (fun _ => (0 : ℝ)) (fun k => 6 * (k : ℝ))
      (fun k => 6000 * (k : ℝ)) 0 1000
  rw [hshear]
  norm_num [huv, Prod.ext_iff]

/-- C5 (amended): the bundle returned by calc_hodograph_stats carries the
Bunkers mover vectors, storm-relative helicity over 0-1 km and 0-3 km with
storm motion equal to the Bunkers right mover (the first two components),
ground-relative helicity over the same layers with storm motion (0, 0), and
the bulk shear of the layers 0-1, 0-3, 0-6, 1-2, 2-3, 3-4, 4-5 and 5-6 km
stored as the uv_to_deg polar pairs (direction in degrees, magnitude) of the
layer shear vectors rather than as the cartesian vectors themselves. -/
theorem calc_hodograph_stats_contents (n : ℕ) (z u v : ℕ → ℝ) :
    (calc_hodograph_stats n z u v).bunkers = storm_motion_bunkers n u v z ∧
    (calc_hodograph_stats n z u v).srh01 =
      dyn_srh n u v z 0 1000 (storm_motion_bunkers n u v z).1
        (storm_motion_bunkers n u v z).2.1 ∧
    (calc_hodograph_stats n z u v).srh03 =
      dyn_srh n u v z 0 3000 (storm_motion_bunkers n u v z).1
        (storm_motion_bunkers n u v z).2.1 ∧
    (calc_hodograph_stats n z u v).erh01 = dyn_srh n u v z 0 1000 0 0 ∧
    (calc_hodograph_stats n z u v).erh03 = dyn_srh n u v z 0 3000 0 0 ∧
    (calc_hodograph_stats n z u v).s01 =
      uv_to_deg (dyn_shear n u v z 0 1000).1 (dyn_shear n u v z 0 1000).2 ∧
    (calc_hodograph_stats n z u v).s03 =
      uv_to_deg (dyn_shear n u v z 0 3000).1 (dyn_shear n u v z 0 3000).2 ∧
    (calc_hodograph_stats n z u v).s06 =
      uv_to_deg (dyn_shear n u v z 0 6000).1 (dyn_shear n u v z 0 6000).2 ∧
    (calc_hodograph_stats n z u v).s12 =
      uv_to_deg (dyn_shear n u v z 1000 2000).1 (dyn_shear n u v z 1000 2000).2 ∧
    (calc_hodograph_stats n z u v).s23 =
      uv_to_deg (dyn_shear n u v z 2000 3000).1 (dyn_shear n u v z 2000 3000).2 ∧
    (calc_hodograph_stats n z u v).s34 =
      uv_to_deg (dyn_shear n u v z 3000 4000).1 (dyn_shear n u v z 3000 4000).2 ∧
    (calc_hodograph_stats n z u v).s45 =
      uv_to_deg (dyn_shear n u v z 4000 5000).1 (dyn_shear n u v z 4000 5000).2 ∧
    (calc_hodograph_stats n z u v).s56 =
      uv_to_deg (dyn_shear n u v z 5000 6000).1 (dyn_shear n u v z 5000 6000).2 :=
  ⟨rfl, rfl, rfl, rfl, rfl, rfl, rfl, rfl, rfl, rfl, rfl, rfl, rfl⟩
